import Mathlib

/-!
Verification development for the payment reconciliation service
(`app/main.py` together with `app/models/db_schema.py` and the
`app/schemas` response models).

The record store is embedded as in-memory lists of Merchant, Order and
Payment rows; SQL filtered reads become `List.filter`, SQL aggregates
become list folds with the same NULL-on-empty behaviour as `func.sum`,
and the single `db.commit()` of a reconciliation run becomes an atomic
replacement of the store state.  Monetary amounts (`Numeric(10, 2)`
columns) are represented as integers (fixed-point, value in cents);
calendar dates are represented as integer day numbers, so that the
`timedelta.days` difference of two dates is plain integer subtraction.
-/

/-- Status lifecycle shared by `OrderStatus` and `PaymentStatus` in
`app/models/db_schema.py`; both Python enums carry exactly these four
values. -/
inductive RecStatus
  | pending
  | completed
  | failed
  | reconciled
deriving DecidableEq, Repr

/-- `merchants` table row (`Merchant` in `db_schema.py`): internal
autoincrement key `id`, unique business identifier `merchant_id`,
display name.  Audit timestamps are bookkeeping outside the matching
logic and are not modelled. -/
structure MerchantRec where
  id : Nat
  merchant_id : String
  merchant_name : String
deriving DecidableEq, Repr

/-- `orders` table row (`Order` in `db_schema.py`).  `merchant_id` is
the integer foreign key to `merchants.id`; `merchant_order_id` is the
globally unique merchant-assigned reference.  `order_date` is optional
here because the matching code guards on its presence
(`if order.order_date and payment.payment_date`). -/
structure OrderRec where
  id : Nat
  merchant_id : Nat
  merchant_order_id : String
  amount : Int
  currency : String
  description : Option String
  order_date : Option Int
  status : RecStatus
deriving DecidableEq, Repr

/-- `payments` table row (`Payment` in `db_schema.py`), shaped like an
order but carrying `payment_date`. -/
structure PaymentRec where
  id : Nat
  merchant_id : Nat
  merchant_order_id : String
  amount : Int
  currency : String
  description : Option String
  payment_date : Option Int
  status : RecStatus
deriving DecidableEq, Repr

/-- The record store: the three tables, each a list of rows in read
order (the order in which an unfiltered query returns them). -/
structure Store where
  merchants : List MerchantRec
  orders : List OrderRec
  payments : List PaymentRec
deriving DecidableEq, Repr

/-- A store with no rows at all. -/
def emptyStore : Store := ⟨[], [], []⟩

/-- `MatchedPair` response model from `app/schemas/reconciliation.py`:
both internal ids, the shared merchant order identifier, and the matched
amount (`float(order.amount)` in the source; kept fixed-point here). -/
structure MatchedPair where
  order_id : Nat
  payment_id : Nat
  merchant_order_id : String
  amount : Int
deriving DecidableEq, Repr

/-- `ReconciliationResult` response model from
`app/schemas/reconciliation.py`. -/
structure ReconciliationResult where
  matched_count : Nat
  matched_pairs : List MatchedPair
  unmatched_orders : List String
  unmatched_payments : List String
deriving DecidableEq, Repr

/-- The error signal surfaced to the caller: an `HTTPException` with its
status code and detail message. -/
structure ApiError where
  status_code : Nat
  detail : String
deriving DecidableEq, Repr

/-- The body of the candidate test in `reconcile_transactions`
(`app/main.py`, rules 1-4): same `merchant_order_id`, same merchant
foreign key, exactly equal amount, and, when both dates are present, an
absolute day difference of at most 3 (`abs((payment.payment_date -
order.order_date).days) > 3` causes a `continue`).  When either date is
absent the date rule is skipped. -/
def rulesMatch (o : OrderRec) (p : PaymentRec) : Bool :=
  p.merchant_order_id == o.merchant_order_id &&
  p.merchant_id == o.merchant_id &&
  p.amount == o.amount &&
  (match o.order_date, p.payment_date with
   | some od, some pd => decide ((pd - od).natAbs ≤ 3)
   | _, _ => true)

/-- The inner `for payment in payments` loop of `reconcile_transactions`
for one order: scan payments in read order, skip a payment whose id is
already in `matched_payment_ids`, and stop at the first payment passing
all rules (`break`); return it, or `none` when the scan falls through. -/
def findPayment (o : OrderRec) (matchedPaymentIds : List Nat) :
    List PaymentRec → Option PaymentRec
  | [] => none
  | p :: rest =>
    if p.id ∈ matchedPaymentIds then findPayment o matchedPaymentIds rest
    else if rulesMatch o p then some p
    else findPayment o matchedPaymentIds rest

/-- The mutable loop state of `reconcile_transactions`: the
`matched_pairs` list and the `matched_order_ids` / `matched_payment_ids`
sets (kept as lists in insertion order; only membership is consulted). -/
structure LoopState where
  matched_pairs : List MatchedPair
  matched_order_ids : List Nat
  matched_payment_ids : List Nat
deriving DecidableEq, Repr

/-- The initial loop state: all three accumulators empty. -/
def initLoopState : LoopState := ⟨[], [], []⟩

/-- The outer `for order in orders` loop of `reconcile_transactions`:
for each order, run the inner scan; on a match append the pair and both
ids (then `break` to the next order), otherwise leave the state as is. -/
def matchLoop (payments : List PaymentRec) :
    List OrderRec → LoopState → LoopState
  | [], st => st
  | o :: rest, st =>
    match findPayment o st.matched_payment_ids payments with
    | none => matchLoop payments rest st
    | some p =>
        matchLoop payments rest
          ⟨st.matched_pairs ++ [⟨o.id, p.id, o.merchant_order_id, o.amount⟩],
           st.matched_order_ids ++ [o.id],
           st.matched_payment_ids ++ [p.id]⟩

/-- Query 1 of `reconcile_transactions`: all orders with status
`completed`, in read order. -/
def completedOrders (s : Store) : List OrderRec :=
  s.orders.filter (fun o => o.status == RecStatus.completed)

/-- Query 2 of `reconcile_transactions`: all payments with status
`completed`, in read order. -/
def completedPayments (s : Store) : List PaymentRec :=
  s.payments.filter (fun p => p.status == RecStatus.completed)

/-- The loop state after the full matching loop of one run over the
completed working sets. -/
def runState (s : Store) : LoopState :=
  matchLoop (completedPayments s) (completedOrders s) initLoopState

/-- The store as committed at the end of a run: every record whose id
was collected in the matched id sets has its status flipped to
`reconciled`; the commit writes each mutated row back by primary key,
all in one batch. -/
def applyMatches (s : Store) (st : LoopState) : Store :=
  { merchants := s.merchants
    orders := s.orders.map (fun o =>
      if o.id ∈ st.matched_order_ids then { o with status := RecStatus.reconciled } else o)
    payments := s.payments.map (fun p =>
      if p.id ∈ st.matched_payment_ids then { p with status := RecStatus.reconciled } else p) }

/-- `POST /reconciliation` (`reconcile_transactions` in `app/main.py`):
read the completed working sets, run the matching loop, flip every
matched record's status to `reconciled`, and report matched pairs plus
the `merchant_order_id`s of the unmatched completed rows.  Returns the
result together with the committed store state. -/
def reconcile_transactions (s : Store) : ReconciliationResult × Store :=
  (⟨(runState s).matched_pairs.length,
    (runState s).matched_pairs,
    ((completedOrders s).filter
        (fun o => o.id ∉ (runState s).matched_order_ids)).map
      (fun o => o.merchant_order_id),
    ((completedPayments s).filter
        (fun p => p.id ∉ (runState s).matched_payment_ids)).map
      (fun p => p.merchant_order_id)⟩,
   applyMatches s (runState s))

/-- The reconciliation run as observed through its single `db.commit()`.
The status mutations are computed in memory and applied by one commit;
the record store's commit/rollback is the external collaborator and is
modelled from the spec as atomic: `commitOk = true` installs the whole
batch, `commitOk = false` is the commit raising, upon which the handler
rolls back (the store stays as it was) and raises the HTTP 500 failure
signal of the `except` branch. -/
def reconcileRun (commitOk : Bool) (s : Store) :
    Except ApiError ReconciliationResult × Store :=
  let computed := reconcile_transactions s
  if commitOk then (Except.ok computed.1, computed.2)
  else (Except.error ⟨500, "An error occurred during reconciliation"⟩, s)

/-- Modelled from the spec (section 4.1): the algorithm description in
the spec's own words, used only to compare against the source embedding.
For one order, "scan Payments in their read order and select the first
Payment" not yet consumed that satisfies the rules — expressed with
`List.find?`. -/
def specSelectPayment (o : OrderRec) (consumed : List Nat)
    (payments : List PaymentRec) : Option PaymentRec :=
  payments.find? (fun p => decide (p.id ∉ consumed) && rulesMatch o p)

/-- Modelled from the spec (section 4.1): iterate the orders in read
order, pair each with `specSelectPayment`'s choice, record exactly one
pair per matched order, and consume the chosen payment. -/
def specMatchRun (payments : List PaymentRec) :
    List OrderRec → LoopState → LoopState
  | [], st => st
  | o :: rest, st =>
    match specSelectPayment o st.matched_payment_ids payments with
    | none => specMatchRun payments rest st
    | some p =>
        specMatchRun payments rest
          ⟨st.matched_pairs ++ [⟨o.id, p.id, o.merchant_order_id, o.amount⟩],
           st.matched_order_ids ++ [o.id],
           st.matched_payment_ids ++ [p.id]⟩

/-- `MerchantCreate` request model from `app/schemas/merchant.py`. -/
structure MerchantCreate where
  merchant_id : String
  merchant_name : String
deriving DecidableEq, Repr

/-- `OrderCreate` request model from `app/schemas/order.py`. -/
structure OrderCreate where
  merchant_id : String
  merchant_order_id : String
  amount : Int
  currency : String
  description : Option String
  order_date : Option Int
  status : RecStatus
deriving DecidableEq, Repr

/-- `PaymentCreate` request model from `app/schemas/payment.py`. -/
structure PaymentCreate where
  merchant_id : String
  merchant_order_id : String
  amount : Int
  currency : String
  description : Option String
  payment_date : Option Int
  status : RecStatus
deriving DecidableEq, Repr

/-- `POST /merchants` (`create_merchant` in `app/main.py`): an explicit
pre-insert query rejects a duplicate `merchant_id` with HTTP 409
Conflict; otherwise the row is inserted and committed.  `newId` stands
for the autoincrement primary key the store assigns.  On error the store
is unchanged. -/
def create_merchant (s : Store) (req : MerchantCreate) (newId : Nat) :
    Except ApiError MerchantRec × Store :=
  if s.merchants.any (fun m => m.merchant_id == req.merchant_id) then
    (Except.error ⟨409, "Merchant " ++ req.merchant_id ++ " already exists"⟩, s)
  else
    let m : MerchantRec := ⟨newId, req.merchant_id, req.merchant_name⟩
    (Except.ok m, { s with merchants := s.merchants ++ [m] })

/-- `POST /orders` (`create_order` in `app/main.py`): resolve the
merchant business identifier to its row (HTTP 404 when absent), then
insert; the unique constraint on `orders.merchant_order_id`
(`db_schema.py`) makes the insert of a duplicate reference raise
`IntegrityError`, which the handler rolls back and maps to HTTP 400 Bad
Request with an "already exists" detail.  On error the store is
unchanged. -/
def create_order (s : Store) (req : OrderCreate) (newId : Nat) :
    Except ApiError OrderRec × Store :=
  match s.merchants.find? (fun m => m.merchant_id == req.merchant_id) with
  | none =>
      (Except.error
        ⟨404, "Merchant with merchant_id " ++ req.merchant_id ++ " not found"⟩, s)
  | some m =>
    if s.orders.any (fun o => o.merchant_order_id == req.merchant_order_id) then
      (Except.error
        ⟨400, "Order with merchant_order_id " ++ req.merchant_order_id ++
              " already exists"⟩, s)
    else
      let o : OrderRec :=
        ⟨newId, m.id, req.merchant_order_id, req.amount, req.currency,
         req.description, req.order_date, req.status⟩
      (Except.ok o, { s with orders := s.orders ++ [o] })

/-- `POST /payments` (`create_payment` in `app/main.py`): same shape as
`create_order` against the `payments` table, whose
`merchant_order_id` column is also unique; a duplicate maps to HTTP 400
Bad Request. -/
def create_payment (s : Store) (req : PaymentCreate) (newId : Nat) :
    Except ApiError PaymentRec × Store :=
  match s.merchants.find? (fun m => m.merchant_id == req.merchant_id) with
  | none =>
      (Except.error
        ⟨404, "Merchant with merchant_id " ++ req.merchant_id ++ " not found"⟩, s)
  | some m =>
    if s.payments.any (fun p => p.merchant_order_id == req.merchant_order_id) then
      (Except.error
        ⟨400, "Payment with merchant_order_id " ++ req.merchant_order_id ++
              " already exists"⟩, s)
    else
      let p : PaymentRec :=
        ⟨newId, m.id, req.merchant_order_id, req.amount, req.currency,
         req.description, req.payment_date, req.status⟩
      (Except.ok p, { s with payments := s.payments ++ [p] })

/-- SQL `func.sum` over a column selection: `NULL` (`none`) on an empty
row set, the sum otherwise.  The handlers coalesce the `None` with
`or 0`. -/
def sqlSum (l : List Int) : Option Int :=
  match l with
  | [] => none
  | _ => some l.sum

/-- One row of the per-merchant breakdown assembled by
`get_reconciliation_report` (the dictionaries merged into
`merchants_summary`). -/
structure MerchantSummary where
  merchant_id : Nat
  reconciled_count : Nat
  reconciled_amount : Int
  unmatched_orders : Nat
  unmatched_payments : Nat
deriving DecidableEq, Repr

/-- `ReconciliationReport` response model from
`app/schemas/reconciliation.py`. -/
structure ReconciliationReport where
  total_reconciled_amount : Int
  total_reconciled_count : Nat
  total_unmatched_orders : Nat
  total_unmatched_payments : Nat
  unmatched_orders_amount : Int
  unmatched_payments_amount : Int
  merchants_summary : List MerchantSummary
deriving DecidableEq, Repr

/-- `GET /reconciliation/report` (`get_reconciliation_report` in
`app/main.py`).  Queries 1-3 aggregate count and `func.sum` over the
reconciled payments, the completed orders and the completed payments,
coalescing a `NULL` sum to 0 with `or 0`.  Queries 4-6 group the same
three selections by `merchant_id` (the `isnot(None)` filters drop
nothing, the column being non-nullable); `merchants_summary` unions the
merchant keys of the three groupings, each `dict.get` defaulting an
absent grouping to zero — which coincides with filtering the selection
down to that merchant, a grouping key being present exactly when its
group is non-empty.  Python iterates the union as a set, whose order is
unspecified; the embedding fixes first-appearance order. -/
def get_reconciliation_report (s : Store) : ReconciliationReport :=
  let reconciledPayments := s.payments.filter (fun p => p.status == RecStatus.reconciled)
  let reconciled_count := reconciledPayments.length
  let reconciled_amount := (sqlSum (reconciledPayments.map (fun p => p.amount))).getD 0
  let completedOrders := s.orders.filter (fun o => o.status == RecStatus.completed)
  let unmatched_orders_count := completedOrders.length
  let unmatched_orders_amount := (sqlSum (completedOrders.map (fun o => o.amount))).getD 0
  let completedPayments := s.payments.filter (fun p => p.status == RecStatus.completed)
  let unmatched_payments_count := completedPayments.length
  let unmatched_payments_amount := (sqlSum (completedPayments.map (fun p => p.amount))).getD 0
  let recKeys := (reconciledPayments.map (fun p => p.merchant_id)).dedup
  let uoKeys := (completedOrders.map (fun o => o.merchant_id)).dedup
  let upKeys := (completedPayments.map (fun p => p.merchant_id)).dedup
  let all_merchant_ids := (recKeys ++ uoKeys ++ upKeys).dedup
  let merchants_summary := all_merchant_ids.map (fun mid =>
    let recForM := reconciledPayments.filter (fun p => p.merchant_id == mid)
    { merchant_id := mid
      reconciled_count := recForM.length
      reconciled_amount := (sqlSum (recForM.map (fun p => p.amount))).getD 0
      unmatched_orders := (completedOrders.filter (fun o => o.merchant_id == mid)).length
      unmatched_payments := (completedPayments.filter (fun p => p.merchant_id == mid)).length
      : MerchantSummary })
  { total_reconciled_amount := reconciled_amount
    total_reconciled_count := reconciled_count
    total_unmatched_orders := unmatched_orders_count
    total_unmatched_payments := unmatched_payments_count
    unmatched_orders_amount := unmatched_orders_amount
    unmatched_payments_amount := unmatched_payments_amount
    merchants_summary := merchants_summary }

/-- `GET /discrepancies` (`get_discrepancies` in `app/main.py`): the raw
completed records of both tables. -/
def get_discrepancies (s : Store) : List OrderRec × List PaymentRec :=
  (s.orders.filter (fun o => o.status == RecStatus.completed),
   s.payments.filter (fun p => p.status == RecStatus.completed))

/-- Sample merchant row (the spec's scenario data, section 8). -/
def wMerchant : MerchantRec := ⟨1, "M1", "Merchant One"⟩

/-- Sample completed order: `ORDER_001`, merchant `M1`, amount 100.00
(10000 cents), order date day 0. -/
def wOrder : OrderRec :=
  ⟨1, 1, "ORDER_001", 10000, "USD", none, some 0, RecStatus.completed⟩

/-- Sample completed payment for `ORDER_001`, equal amount, one day
later. -/
def wPayment : PaymentRec :=
  ⟨1, 1, "ORDER_001", 10000, "USD", none, some 1, RecStatus.completed⟩

/-- Sample store holding the scenario rows. -/
def wStore : Store := ⟨[wMerchant], [wOrder], [wPayment]⟩

/-- The pair the run over `wStore` records. -/
def wPair : MatchedPair := ⟨1, 1, "ORDER_001", 10000⟩

/-- A create-order request duplicating `wOrder`'s merchant order
identifier. -/
def wOrderReq : OrderCreate :=
  ⟨"M1", "ORDER_001", 500, "USD", none, some 0, RecStatus.pending⟩

/-- A create-payment request duplicating `wPayment`'s merchant order
identifier. -/
def wPaymentReq : PaymentCreate :=
  ⟨"M1", "ORDER_001", 500, "USD", none, some 0, RecStatus.pending⟩

/-! ### Helper lemmas about the matching loop -/

lemma findPayment_eq_specSelect (o : OrderRec) (ids : List Nat) :
    ∀ ps : List PaymentRec, findPayment o ids ps = specSelectPayment o ids ps := by
  intro ps
  induction ps with
  | nil => rfl
  | cons p rest ih =>
    simp only [findPayment, specSelectPayment, List.find?]
    by_cases hmem : p.id ∈ ids
    · simp [hmem, ih, specSelectPayment]
    · by_cases hr : rulesMatch o p
      · simp [hmem, hr]
      · simp [hmem, hr, ih, specSelectPayment]

lemma findPayment_some (o : OrderRec) (ids : List Nat) :
    ∀ ps : List PaymentRec, ∀ p : PaymentRec,
      findPayment o ids ps = some p →
      p ∈ ps ∧ p.id ∉ ids ∧ rulesMatch o p = true := by
  intro ps
  induction ps with
  | nil => intro p h; exact absurd h (by simp [findPayment])
  | cons q rest ih =>
    intro p h
    simp only [findPayment] at h
    by_cases hmem : q.id ∈ ids
    · rw [if_pos hmem] at h
      obtain ⟨h1, h2, h3⟩ := ih p h
      exact ⟨List.mem_cons_of_mem q h1, h2, h3⟩
    · rw [if_neg hmem] at h
      by_cases hr : rulesMatch o q
      · rw [if_pos hr] at h
        cases h
        exact ⟨List.mem_cons_self q rest, hmem, hr⟩
      · rw [if_neg hr] at h
        obtain ⟨h1, h2, h3⟩ := ih p h
        exact ⟨List.mem_cons_of_mem q h1, h2, h3⟩

lemma findPayment_none_reject (o : OrderRec) (ids : List Nat) :
    ∀ ps : List PaymentRec,
      findPayment o ids ps = none →
      ∀ p ∈ ps, p.id ∈ ids ∨ rulesMatch o p = false := by
  intro ps
  induction ps with
  | nil => intro _ p hp; exact absurd hp (List.not_mem_nil p)
  | cons q rest ih =>
    intro h p hp
    simp only [findPayment] at h
    by_cases hmem : q.id ∈ ids
    · rw [if_pos hmem] at h
      rcases List.mem_cons.mp hp with rfl | hp'
      · exact Or.inl hmem
      · exact ih h p hp'
    · rw [if_neg hmem] at h
      by_cases hr : rulesMatch o q
      · rw [if_pos hr] at h; cases h
      · rw [if_neg hr] at h
        rcases List.mem_cons.mp hp with rfl | hp'
        · exact Or.inr (Bool.eq_false_iff.mpr hr)
        · exact ih h p hp'

lemma findPayment_of_all_reject (o : OrderRec) (ids : List Nat) :
    ∀ ps : List PaymentRec,
      (∀ p ∈ ps, rulesMatch o p = false) →
      findPayment o ids ps = none := by
  intro ps
  induction ps with
  | nil => intro _; rfl
  | cons q rest ih =>
    intro h
    simp only [findPayment]
    have hq : rulesMatch o q = false := h q (List.mem_cons_self q rest)
    by_cases hmem : q.id ∈ ids
    · rw [if_pos hmem]
      exact ih (fun p hp => h p (List.mem_cons_of_mem q hp))
    · rw [if_neg hmem, if_neg (by simp [hq]), ih (fun p hp => h p (List.mem_cons_of_mem q hp))]

lemma matchLoop_pids_prefix (ps : List PaymentRec) :
    ∀ os : List OrderRec, ∀ st : LoopState,
      ∃ l, (matchLoop ps os st).matched_payment_ids = st.matched_payment_ids ++ l := by
  intro os
  induction os with
  | nil => intro st; exact ⟨[], by simp [matchLoop]⟩
  | cons o rest ih =>
    intro st
    simp only [matchLoop]
    cases hf : findPayment o st.matched_payment_ids ps with
    | none => exact ih st
    | some p =>
      obtain ⟨l, hl⟩ :=
        ih ⟨st.matched_pairs ++ [⟨o.id, p.id, o.merchant_order_id, o.amount⟩],
            st.matched_order_ids ++ [o.id], st.matched_payment_ids ++ [p.id]⟩
      exact ⟨[p.id] ++ l, by simpa [List.append_assoc] using hl⟩

lemma matchLoop_oids_sublist (ps : List PaymentRec) :
    ∀ os : List OrderRec, ∀ st : LoopState,
      ∃ l, (matchLoop ps os st).matched_order_ids = st.matched_order_ids ++ l ∧
        List.Sublist l (os.map (fun o => o.id)) := by
  intro os
  induction os with
  | nil => intro st; exact ⟨[], by simp [matchLoop], List.nil_sublist _⟩
  | cons o rest ih =>
    intro st
    simp only [matchLoop]
    cases hf : findPayment o st.matched_payment_ids ps with
    | none =>
      obtain ⟨l, hl, hs⟩ := ih st
      exact ⟨l, hl, hs.trans (List.sublist_cons_self o.id _)⟩
    | some p =>
      obtain ⟨l, hl, hs⟩ :=
        ih ⟨st.matched_pairs ++ [⟨o.id, p.id, o.merchant_order_id, o.amount⟩],
            st.matched_order_ids ++ [o.id], st.matched_payment_ids ++ [p.id]⟩
      exact ⟨o.id :: l, by simpa [List.append_assoc] using hl,
        List.cons_sublist_cons.mpr hs⟩

lemma matchLoop_lockstep (ps : List PaymentRec) :
    ∀ os : List OrderRec, ∀ st : LoopState,
      st.matched_order_ids = st.matched_pairs.map (fun pr => pr.order_id) →
      st.matched_payment_ids = st.matched_pairs.map (fun pr => pr.payment_id) →
      (matchLoop ps os st).matched_order_ids =
        (matchLoop ps os st).matched_pairs.map (fun pr => pr.order_id) ∧
      (matchLoop ps os st).matched_payment_ids =
        (matchLoop ps os st).matched_pairs.map (fun pr => pr.payment_id) := by
  intro os
  induction os with
  | nil => intro st h1 h2; exact ⟨h1, h2⟩
  | cons o rest ih =>
    intro st h1 h2
    simp only [matchLoop]
    cases hf : findPayment o st.matched_payment_ids ps with
    | none => exact ih st h1 h2
    | some p =>
      exact ih _ (by simp [h1]) (by simp [h2])

lemma matchLoop_pids_nodup (ps : List PaymentRec) :
    ∀ os : List OrderRec, ∀ st : LoopState,
      st.matched_payment_ids.Nodup →
      (matchLoop ps os st).matched_payment_ids.Nodup := by
  intro os
  induction os with
  | nil => intro st h; exact h
  | cons o rest ih =>
    intro st h
    simp only [matchLoop]
    cases hf : findPayment o st.matched_payment_ids ps with
    | none => exact ih st h
    | some p =>
      have hp := findPayment_some o st.matched_payment_ids ps p hf
      refine ih _ ?_
      simpa [List.nodup_append] using ⟨h, fun hmem => hp.2.1 hmem⟩

lemma matchLoop_pairs_sound (ps : List PaymentRec) :
    ∀ os : List OrderRec, ∀ st : LoopState,
      ∀ pr ∈ (matchLoop ps os st).matched_pairs,
        pr ∈ st.matched_pairs ∨
        ∃ o ∈ os, ∃ p ∈ ps, rulesMatch o p = true ∧
          pr = ⟨o.id, p.id, o.merchant_order_id, o.amount⟩ := by
  intro os
  induction os with
  | nil => intro st pr hpr; exact Or.inl hpr
  | cons o rest ih =>
    intro st pr hpr
    simp only [matchLoop] at hpr
    cases hf : findPayment o st.matched_payment_ids ps with
    | none =>
      rw [hf] at hpr
      rcases ih st pr hpr with h | ⟨o', ho', p', hp', hr, he⟩
      · exact Or.inl h
      · exact Or.inr ⟨o', List.mem_cons_of_mem o ho', p', hp', hr, he⟩
    | some p =>
      rw [hf] at hpr
      rcases ih _ pr hpr with h | ⟨o', ho', p', hp', hr, he⟩
      · rcases List.mem_append.mp h with h' | h'
        · exact Or.inl h'
        · have hp := findPayment_some o st.matched_payment_ids ps p hf
          refine Or.inr ⟨o, List.mem_cons_self o rest, p, hp.1, hp.2.2, ?_⟩
          simpa using h'
      · exact Or.inr ⟨o', List.mem_cons_of_mem o ho', p', hp', hr, he⟩

lemma matchLoop_unmatched_reject (ps : List PaymentRec) :
    ∀ os : List OrderRec, ∀ st : LoopState, ∀ o ∈ os,
      o.id ∉ (matchLoop ps os st).matched_order_ids →
      ∀ p ∈ ps, p.id ∉ (matchLoop ps os st).matched_payment_ids →
        rulesMatch o p = false := by
  intro os
  induction os with
  | nil => intro st o ho; exact absurd ho (List.not_mem_nil o)
  | cons o' rest ih =>
    intro st o ho hoid p hp hpid
    simp only [matchLoop] at hoid hpid ⊢
    cases hf : findPayment o' st.matched_payment_ids ps with
    | none =>
      rw [hf] at hoid hpid
      rcases List.mem_cons.mp ho with rfl | ho'
      · rcases findPayment_none_reject o st.matched_payment_ids ps hf p hp with hin | hrej
        · obtain ⟨l, hl⟩ := matchLoop_pids_prefix ps rest st
          exact absurd (hl ▸ List.mem_append_left l hin) hpid
        · exact hrej
      · exact ih st o ho' hoid p hp hpid
    | some q =>
      rw [hf] at hoid hpid
      rcases List.mem_cons.mp ho with rfl | ho'
      · obtain ⟨l, hl, _⟩ :=
          matchLoop_oids_sublist ps rest
            ⟨st.matched_pairs ++ [⟨o.id, q.id, o.merchant_order_id, o.amount⟩],
             st.matched_order_ids ++ [o.id], st.matched_payment_ids ++ [q.id]⟩
        exact absurd (by simp [hl]) hoid
      · exact ih _ o ho' hoid p hp hpid

lemma matchLoop_all_reject_eq (ps : List PaymentRec) :
    ∀ os : List OrderRec, ∀ st : LoopState,
      (∀ o ∈ os, ∀ p ∈ ps, rulesMatch o p = false) →
      matchLoop ps os st = st := by
  intro os
  induction os with
  | nil => intro st _; rfl
  | cons o rest ih =>
    intro st h
    simp only [matchLoop]
    rw [findPayment_of_all_reject o st.matched_payment_ids ps
      (fun p hp => h o (List.mem_cons_self o rest) p hp)]
    exact ih st (fun o' ho' p hp => h o' (List.mem_cons_of_mem o ho') p hp)

lemma matchLoop_eq_specMatchRun (ps : List PaymentRec) :
    ∀ os : List OrderRec, ∀ st : LoopState,
      matchLoop ps os st = specMatchRun ps os st := by
  intro os
  induction os with
  | nil => intro st; rfl
  | cons o rest ih =>
    intro st
    simp only [matchLoop, specMatchRun, ← findPayment_eq_specSelect]
    cases findPayment o st.matched_payment_ids ps with
    | none => exact ih st
    | some p => exact ih _

/-! ### Claim theorems -/

/-- Claim C1: every pair a reconciliation run records as matched joins a
completed Order and a completed Payment whose amounts are equal, whose
resolved merchant references are equal and whose merchant order
identifiers coincide; and whenever both the order date and the payment
date are present, their absolute difference in days is at most 3. -/
theorem reconcile_matched_pair_rules (s : Store) (pr : MatchedPair)
    (hpr : pr ∈ (reconcile_transactions s).1.matched_pairs) :
    ∃ o ∈ s.orders, ∃ p ∈ s.payments,
      o.status = RecStatus.completed ∧ p.status = RecStatus.completed ∧
      pr.order_id = o.id ∧ pr.payment_id = p.id ∧
      pr.merchant_order_id = o.merchant_order_id ∧ pr.amount = o.amount ∧
      o.amount = p.amount ∧ o.merchant_id = p.merchant_id ∧
      o.merchant_order_id = p.merchant_order_id ∧
      (∀ od pd, o.order_date = some od → p.payment_date = some pd →
        (pd - od).natAbs ≤ 3) := by
  have hpr' : pr ∈ (runState s).matched_pairs := hpr
  rcases matchLoop_pairs_sound (completedPayments s) (completedOrders s)
      initLoopState pr hpr' with h | ⟨o, ho, p, hp, hr, he⟩
  · exact absurd h (List.not_mem_nil pr)
  · have ho' := List.mem_filter.mp ho
    have hp' := List.mem_filter.mp hp
    have hos : o.status = RecStatus.completed := by
      simpa [beq_iff_eq] using ho'.2
    have hps : p.status = RecStatus.completed := by
      simpa [beq_iff_eq] using hp'.2
    have hrules := hr
    rw [rulesMatch, Bool.and_eq_true, Bool.and_eq_true, Bool.and_eq_true]
      at hrules
    obtain ⟨⟨⟨hmoid, hmid⟩, hamt⟩, hdate⟩ := hrules
    subst he
    refine ⟨o, ho'.1, p, hp'.1, hos, hps, rfl, rfl, rfl, rfl,
      (eq_of_beq hamt).symm, (eq_of_beq hmid).symm, (eq_of_beq hmoid).symm, ?_⟩
    intro od pd h1 h2
    rw [h1, h2] at hdate
    simpa using hdate

/-- Claim C4: the engine is first-fit in the read order of both sets —
the inner scan equals `List.find?` of the first not-yet-consumed
payment satisfying the rules, the whole loop equals the spec-side
first-fit run, and so do the reported matched pairs of a run. -/
theorem reconcile_first_fit (s : Store) :
    (∀ (o : OrderRec) (ids : List Nat) (ps : List PaymentRec),
       findPayment o ids ps =
         ps.find? (fun p => decide (p.id ∉ ids) && rulesMatch o p)) ∧
    (∀ (ps : List PaymentRec) (os : List OrderRec) (st : LoopState),
       matchLoop ps os st = specMatchRun ps os st) ∧
    (reconcile_transactions s).1.matched_pairs =
      (specMatchRun (completedPayments s) (completedOrders s)
        initLoopState).matched_pairs := by
  refine ⟨fun o ids ps => findPayment_eq_specSelect o ids ps,
    fun ps os st => matchLoop_eq_specMatchRun ps os st, ?_⟩
  have h := matchLoop_eq_specMatchRun (completedPayments s) (completedOrders s)
    initLoopState
  simpa [reconcile_transactions, runState] using congrArg LoopState.matched_pairs h

lemma second_pool_rejects (s : Store) :
    ∀ o₂ ∈ completedOrders (reconcile_transactions s).2,
    ∀ p₂ ∈ completedPayments (reconcile_transactions s).2,
      rulesMatch o₂ p₂ = false := by
  intro o₂ ho₂ p₂ hp₂
  have h := List.mem_filter.mp ho₂
  obtain ⟨o, ho, heq⟩ := List.mem_map.mp
    (show o₂ ∈ s.orders.map (fun o =>
        if o.id ∈ (runState s).matched_order_ids
        then { o with status := RecStatus.reconciled } else o) from h.1)
  have hq := List.mem_filter.mp hp₂
  obtain ⟨p, hp, heqp⟩ := List.mem_map.mp
    (show p₂ ∈ s.payments.map (fun p =>
        if p.id ∈ (runState s).matched_payment_ids
        then { p with status := RecStatus.reconciled } else p) from hq.1)
  by_cases hoid : o.id ∈ (runState s).matched_order_ids
  · exfalso
    rw [if_pos hoid] at heq
    have : o₂.status = RecStatus.reconciled := by rw [← heq]
    have h2 := h.2
    rw [this] at h2
    simp at h2
  · rw [if_neg hoid] at heq
    by_cases hpid : p.id ∈ (runState s).matched_payment_ids
    · exfalso
      rw [if_pos hpid] at heqp
      have : p₂.status = RecStatus.reconciled := by rw [← heqp]
      have h2 := hq.2
      rw [this] at h2
      simp at h2
    · rw [if_neg hpid] at heqp
      have hoP : o₂ ∈ completedOrders s := List.mem_filter.mpr ⟨heq ▸ ho, h.2⟩
      have hpP : p₂ ∈ completedPayments s := List.mem_filter.mpr ⟨heqp ▸ hp, hq.2⟩
      have hoid₂ : o₂.id ∉ (runState s).matched_order_ids := by
        rw [← heq]; exact hoid
      have hpid₂ : p₂.id ∉ (runState s).matched_payment_ids := by
        rw [← heqp]; exact hpid
      exact matchLoop_unmatched_reject (completedPayments s) (completedOrders s)
        initLoopState o₂ hoP hoid₂ p₂ hpP hpid₂

/-- Claim C3: reconciliation is idempotent at rest — on the store state
committed by one run, a second run with no intervening change records
zero matches. -/
theorem reconcile_idempotent (s : Store) :
    (reconcile_transactions (reconcile_transactions s).2).1.matched_pairs = [] ∧
    (reconcile_transactions (reconcile_transactions s).2).1.matched_count = 0 := by
  have hrun : runState (reconcile_transactions s).2 = initLoopState :=
    matchLoop_all_reject_eq (completedPayments (reconcile_transactions s).2)
      (completedOrders (reconcile_transactions s).2) initLoopState
      (second_pool_rejects s)
  constructor
  · show (runState (reconcile_transactions s).2).matched_pairs = []
    rw [hrun]
    rfl
  · show (runState (reconcile_transactions s).2).matched_pairs.length = 0
    rw [hrun]
    rfl

/-- Claim C5: the run's status mutations land in one atomic batch — a
failing commit leaves every reader's view of the store exactly as
before the run and surfaces the HTTP 500 failure signal instead of a
result, while a successful commit installs precisely the batch of this
run's matches (each matched record flipped to `reconciled`). -/
theorem reconcile_atomic_on_failure (s : Store) :
    (reconcileRun false s).2 = s ∧
    (reconcileRun false s).1 =
      Except.error ⟨500, "An error occurred during reconciliation"⟩ ∧
    get_reconciliation_report (reconcileRun false s).2 =
      get_reconciliation_report s ∧
    get_discrepancies (reconcileRun false s).2 = get_discrepancies s ∧
    (reconcileRun true s).1 = Except.ok (reconcile_transactions s).1 ∧
    (reconcileRun true s).2 = applyMatches s (runState s) ∧
    (reconcileRun true s).2.orders = s.orders.map (fun o =>
      if o.id ∈ (reconcile_transactions s).1.matched_pairs.map
          (fun pr => pr.order_id)
      then { o with status := RecStatus.reconciled } else o) ∧
    (reconcileRun true s).2.payments = s.payments.map (fun p =>
      if p.id ∈ (reconcile_transactions s).1.matched_pairs.map
          (fun pr => pr.payment_id)
      then { p with status := RecStatus.reconciled } else p) := by
  obtain ⟨hl1, hl2⟩ := matchLoop_lockstep (completedPayments s)
    (completedOrders s) initLoopState rfl rfl
  have hl1' : (runState s).matched_order_ids =
      (runState s).matched_pairs.map (fun pr => pr.order_id) := hl1
  have hl2' : (runState s).matched_payment_ids =
      (runState s).matched_pairs.map (fun pr => pr.payment_id) := hl2
  refine ⟨rfl, rfl, rfl, rfl, rfl, rfl, ?_, ?_⟩
  · show (applyMatches s (runState s)).orders = _
    simp only [applyMatches]
    rw [hl1']
    rfl
  · show (applyMatches s (runState s)).payments = _
    simp only [applyMatches]
    rw [hl2']
    rfl

lemma matchLoop_pids_from (ps : List PaymentRec) :
    ∀ os : List OrderRec, ∀ st : LoopState,
      ∀ x ∈ (matchLoop ps os st).matched_payment_ids,
        x ∈ st.matched_payment_ids ∨ ∃ p ∈ ps, p.id = x := by
  intro os
  induction os with
  | nil => intro st x hx; exact Or.inl hx
  | cons o rest ih =>
    intro st x hx
    simp only [matchLoop] at hx
    cases hf : findPayment o st.matched_payment_ids ps with
    | none =>
      rw [hf] at hx
      exact ih st x hx
    | some p =>
      rw [hf] at hx
      rcases ih _ x hx with h | h
      · rcases List.mem_append.mp h with h' | h'
        · exact Or.inl h'
        · have hp := findPayment_some o st.matched_payment_ids ps p hf
          have hx : x = p.id := by simpa using h'
          exact Or.inr ⟨p, hp.1, hx.symm⟩
      · exact Or.inr h

lemma sqlSum_getD (l : List Int) : (sqlSum l).getD 0 = l.sum := by
  cases l with
  | nil => rfl
  | cons a t => rfl

lemma length_filter_key {α : Type} (f : α → Nat) (L : List Nat) :
    ∀ pool : List α,
      (pool.filter (fun a => decide (f a ∈ L))).length =
      ((pool.map f).filter (fun x => decide (x ∈ L))).length := by
  intro pool
  induction pool with
  | nil => rfl
  | cons a t ih =>
    by_cases h : f a ∈ L <;> simp [List.filter_cons, h, ih]

lemma length_filter_bool_not {α : Type} (p : α → Bool) :
    ∀ l : List α,
      (l.filter (fun a => !(p a))).length = l.length - (l.filter p).length := by
  intro l
  induction l with
  | nil => rfl
  | cons a t ih =>
    have hle := List.length_filter_le p t
    cases h : p a <;> simp [List.filter_cons, h, ih] <;> omega

lemma length_filter_not_key {α : Type} (f : α → Nat) (L : List Nat) :
    ∀ pool : List α,
      (pool.filter (fun a => decide (f a ∉ L))).length =
      pool.length - (pool.filter (fun a => decide (f a ∈ L))).length := by
  intro pool
  have hcongr : pool.filter (fun a => decide (f a ∉ L)) =
      pool.filter (fun a => !(decide (f a ∈ L))) :=
    List.filter_congr (fun x _ => by simp [decide_not])
  rw [hcongr, length_filter_bool_not]

lemma length_filter_mem_of_nodup (l L : List Nat) (hl : l.Nodup)
    (hL : L.Nodup) (hsub : ∀ x ∈ L, x ∈ l) :
    (l.filter (fun x => decide (x ∈ L))).length = L.length := by
  have hfn : (l.filter (fun x => decide (x ∈ L))).Nodup := hl.filter _
  have hset : (l.filter (fun x => decide (x ∈ L))).toFinset = L.toFinset := by
    ext x
    simp only [List.mem_toFinset, List.mem_filter, decide_eq_true_eq]
    exact ⟨fun h => h.2, fun h => ⟨hsub x h, h⟩⟩
  have h1 := List.toFinset_card_of_nodup hfn
  have h2 := List.toFinset_card_of_nodup hL
  rw [← h1, ← h2, hset]

/-- Witness for C1: the scenario store yields the pair `wPair`, and the
rule conformance holds for it. -/
theorem reconcile_matched_pair_rules_witness :
    wPair ∈ (reconcile_transactions wStore).1.matched_pairs ∧
    (∃ o ∈ wStore.orders, ∃ p ∈ wStore.payments,
      o.status = RecStatus.completed ∧ p.status = RecStatus.completed ∧
      wPair.order_id = o.id ∧ wPair.payment_id = p.id ∧
      wPair.merchant_order_id = o.merchant_order_id ∧
      wPair.amount = o.amount ∧
      o.amount = p.amount ∧ o.merchant_id = p.merchant_id ∧
      o.merchant_order_id = p.merchant_order_id ∧
      (∀ od pd, o.order_date = some od → p.payment_date = some pd →
        (pd - od).natAbs ≤ 3)) :=
  ⟨by decide, reconcile_matched_pair_rules wStore wPair (by decide)⟩

/-- Claim C2: within one run the matching is one-to-one — no payment id
and (given the store's primary keys are unique) no order id appears in
two different matched pairs. -/
theorem reconcile_one_to_one (s : Store)
    (h : (s.orders.map (fun o => o.id)).Nodup) :
    ((reconcile_transactions s).1.matched_pairs.map
        (fun pr => pr.payment_id)).Nodup ∧
    ((reconcile_transactions s).1.matched_pairs.map
        (fun pr => pr.order_id)).Nodup := by
  obtain ⟨hl1, hl2⟩ := matchLoop_lockstep (completedPayments s)
    (completedOrders s) initLoopState rfl rfl
  have hl1' : (runState s).matched_order_ids =
      (runState s).matched_pairs.map (fun pr => pr.order_id) := hl1
  have hl2' : (runState s).matched_payment_ids =
      (runState s).matched_pairs.map (fun pr => pr.payment_id) := hl2
  constructor
  · show ((runState s).matched_pairs.map (fun pr => pr.payment_id)).Nodup
    rw [← hl2']
    exact matchLoop_pids_nodup (completedPayments s) (completedOrders s)
      initLoopState List.nodup_nil
  · show ((runState s).matched_pairs.map (fun pr => pr.order_id)).Nodup
    rw [← hl1']
    obtain ⟨l, hl, hsub⟩ := matchLoop_oids_sublist (completedPayments s)
      (completedOrders s) initLoopState
    have hrl : (runState s).matched_order_ids =
        initLoopState.matched_order_ids ++ l := hl
    have hrl' : (runState s).matched_order_ids = l := by
      simpa [initLoopState] using hrl
    rw [hrl']
    have hpool : List.Sublist ((completedOrders s).map (fun o => o.id))
        (s.orders.map (fun o => o.id)) := by
      show List.Sublist ((s.orders.filter
          (fun o => o.status == RecStatus.completed)).map (fun o => o.id))
        (s.orders.map (fun o => o.id))
      exact List.Sublist.map _ (List.filter_sublist _)
    exact List.Nodup.sublist (hsub.trans hpool) h

/-- Witness for C2 at the scenario store. -/
theorem reconcile_one_to_one_witness :
    (wStore.orders.map (fun o => o.id)).Nodup ∧
    (((reconcile_transactions wStore).1.matched_pairs.map
        (fun pr => pr.payment_id)).Nodup ∧
     ((reconcile_transactions wStore).1.matched_pairs.map
        (fun pr => pr.order_id)).Nodup) :=
  ⟨by decide, reconcile_one_to_one wStore (by decide)⟩

/-- Claim C7: the report's global totals — reconciled count and amount
are computed over the Payment records with status `reconciled` (count,
and sum of stored amounts), and the unmatched totals count the Order,
respectively Payment, records still in status `completed`. -/
theorem report_totals_from_status (s : Store) :
    (get_reconciliation_report s).total_reconciled_count =
      (s.payments.filter (fun p => p.status == RecStatus.reconciled)).length ∧
    (get_reconciliation_report s).total_reconciled_amount =
      ((s.payments.filter (fun p => p.status == RecStatus.reconciled)).map
        (fun p => p.amount)).sum ∧
    (get_reconciliation_report s).total_unmatched_orders =
      (s.orders.filter (fun o => o.status == RecStatus.completed)).length ∧
    (get_reconciliation_report s).total_unmatched_payments =
      (s.payments.filter (fun p => p.status == RecStatus.completed)).length := by
  refine ⟨rfl, ?_, rfl, rfl⟩
  show (sqlSum ((s.payments.filter
      (fun p => p.status == RecStatus.reconciled)).map
      (fun p => p.amount))).getD 0 = _
  exact sqlSum_getD _

/-- Claim C8: the report of the empty store is all-zero with an empty
per-merchant summary, and in general an empty grouping's sum is reported
as 0 rather than as SQL NULL. -/
theorem report_empty_is_zero :
    get_reconciliation_report emptyStore = ⟨0, 0, 0, 0, 0, 0, []⟩ ∧
    (∀ s : Store,
      (s.payments.filter (fun p => p.status == RecStatus.reconciled) = [] →
        (get_reconciliation_report s).total_reconciled_amount = 0) ∧
      (s.orders.filter (fun o => o.status == RecStatus.completed) = [] →
        (get_reconciliation_report s).unmatched_orders_amount = 0) ∧
      (s.payments.filter (fun p => p.status == RecStatus.completed) = [] →
        (get_reconciliation_report s).unmatched_payments_amount = 0)) := by
  refine ⟨rfl, fun s => ⟨?_, ?_, ?_⟩⟩
  · intro h
    show (sqlSum ((s.payments.filter
        (fun p => p.status == RecStatus.reconciled)).map
        (fun p => p.amount))).getD 0 = 0
    rw [h]
    rfl
  · intro h
    show (sqlSum ((s.orders.filter
        (fun o => o.status == RecStatus.completed)).map
        (fun o => o.amount))).getD 0 = 0
    rw [h]
    rfl
  · intro h
    show (sqlSum ((s.payments.filter
        (fun p => p.status == RecStatus.completed)).map
        (fun p => p.amount))).getD 0 = 0
    rw [h]
    rfl

/-- Witness for C8: the empty-grouping hypotheses hold at the empty
store and the zero results follow from the theorem. -/
theorem report_empty_is_zero_witness :
    (emptyStore.payments.filter
      (fun p => p.status == RecStatus.reconciled) = []) ∧
    (get_reconciliation_report emptyStore).total_reconciled_amount = 0 :=
  ⟨rfl, (report_empty_is_zero.2 emptyStore).1 rfl⟩

/-- Claim C9: a run only ever advances a record from `completed` to
`reconciled` — any record whose status is not `completed` (pending,
failed, or already reconciled) comes out of the run entirely unchanged,
and a matched record changes in its status field alone. -/
theorem reconcile_status_advance (s : Store)
    (h1 : (s.orders.map (fun o => o.id)).Nodup)
    (h2 : (s.payments.map (fun p => p.id)).Nodup) :
    List.Forall₂ (fun o o' =>
        (o.status ≠ RecStatus.completed → o' = o) ∧
        (o' = o ∨ (o.status = RecStatus.completed ∧
          o' = { o with status := RecStatus.reconciled })))
      s.orders (reconcile_transactions s).2.orders ∧
    List.Forall₂ (fun p p' =>
        (p.status ≠ RecStatus.completed → p' = p) ∧
        (p' = p ∨ (p.status = RecStatus.completed ∧
          p' = { p with status := RecStatus.reconciled })))
      s.payments (reconcile_transactions s).2.payments := by
  constructor
  · show List.Forall₂ _ s.orders (s.orders.map (fun o =>
      if o.id ∈ (runState s).matched_order_ids
      then { o with status := RecStatus.reconciled } else o))
    rw [List.forall₂_map_right_iff, List.forall₂_same]
    intro o ho
    by_cases hmem : o.id ∈ (runState s).matched_order_ids
    · obtain ⟨l, hl, hsub⟩ := matchLoop_oids_sublist (completedPayments s)
        (completedOrders s) initLoopState
      have hrl : (runState s).matched_order_ids =
          initLoopState.matched_order_ids ++ l := hl
      have hmem' : o.id ∈ l := by
        have hx := hrl ▸ hmem
        simpa [initLoopState] using hx
      obtain ⟨o2, ho2, hid⟩ := List.mem_map.mp (hsub.subset hmem')
      have ho2' := List.mem_filter.mp ho2
      have heq : o2 = o := List.inj_on_of_nodup_map h1 ho2'.1 ho hid
      have hcomp : o.status = RecStatus.completed := by
        rw [← heq]
        simpa [beq_iff_eq] using ho2'.2
      rw [if_pos hmem]
      exact ⟨fun hne => absurd hcomp hne, Or.inr ⟨hcomp, rfl⟩⟩
    · rw [if_neg hmem]
      exact ⟨fun _ => rfl, Or.inl rfl⟩
  · show List.Forall₂ _ s.payments (s.payments.map (fun p =>
      if p.id ∈ (runState s).matched_payment_ids
      then { p with status := RecStatus.reconciled } else p))
    rw [List.forall₂_map_right_iff, List.forall₂_same]
    intro p hp
    by_cases hmem : p.id ∈ (runState s).matched_payment_ids
    · rcases matchLoop_pids_from (completedPayments s) (completedOrders s)
        initLoopState p.id hmem with h | ⟨q, hq, hqid⟩
      · exact absurd (show p.id ∈ ([] : List Nat) from h)
          (List.not_mem_nil p.id)
      · have hq' := List.mem_filter.mp hq
        have heq : q = p := List.inj_on_of_nodup_map h2 hq'.1 hp hqid
        have hcomp : p.status = RecStatus.completed := by
          rw [← heq]
          simpa [beq_iff_eq] using hq'.2
        rw [if_pos hmem]
        exact ⟨fun hne => absurd hcomp hne, Or.inr ⟨hcomp, rfl⟩⟩
    · rw [if_neg hmem]
      exact ⟨fun _ => rfl, Or.inl rfl⟩

/-- Witness for C9 at the scenario store. -/
theorem reconcile_status_advance_witness :
    (wStore.orders.map (fun o => o.id)).Nodup ∧
    (wStore.payments.map (fun p => p.id)).Nodup ∧
    (List.Forall₂ (fun o o' =>
        (o.status ≠ RecStatus.completed → o' = o) ∧
        (o' = o ∨ (o.status = RecStatus.completed ∧
          o' = { o with status := RecStatus.reconciled })))
      wStore.orders (reconcile_transactions wStore).2.orders ∧
     List.Forall₂ (fun p p' =>
        (p.status ≠ RecStatus.completed → p' = p) ∧
        (p' = p ∨ (p.status = RecStatus.completed ∧
          p' = { p with status := RecStatus.reconciled })))
      wStore.payments (reconcile_transactions wStore).2.payments) :=
  ⟨by decide, by decide,
   reconcile_status_advance wStore (by decide) (by decide)⟩

/-- Claim C10: a successful run's result partitions the working set
read at its start — `matched_count` is the length of `matched_pairs`,
the unmatched lists are exactly the merchant order identifiers of the
completed records whose id is in no pair, and matched plus unmatched
counts give back each working set's size. -/
theorem reconcile_result_partition (s : Store)
    (h1 : (s.orders.map (fun o => o.id)).Nodup)
    (h2 : (s.payments.map (fun p => p.id)).Nodup) :
    (reconcile_transactions s).1.matched_count =
      (reconcile_transactions s).1.matched_pairs.length ∧
    (reconcile_transactions s).1.unmatched_orders =
      ((completedOrders s).filter (fun o =>
          o.id ∉ (reconcile_transactions s).1.matched_pairs.map
            (fun pr => pr.order_id))).map (fun o => o.merchant_order_id) ∧
    (reconcile_transactions s).1.unmatched_payments =
      ((completedPayments s).filter (fun p =>
          p.id ∉ (reconcile_transactions s).1.matched_pairs.map
            (fun pr => pr.payment_id))).map (fun p => p.merchant_order_id) ∧
    (reconcile_transactions s).1.matched_count +
      (reconcile_transactions s).1.unmatched_orders.length =
      (completedOrders s).length ∧
    (reconcile_transactions s).1.matched_count +
      (reconcile_transactions s).1.unmatched_payments.length =
      (completedPayments s).length := by
  obtain ⟨hl1, hl2⟩ := matchLoop_lockstep (completedPayments s)
    (completedOrders s) initLoopState rfl rfl
  have hl1' : (runState s).matched_order_ids =
      (runState s).matched_pairs.map (fun pr => pr.order_id) := hl1
  have hl2' : (runState s).matched_payment_ids =
      (runState s).matched_pairs.map (fun pr => pr.payment_id) := hl2
  obtain ⟨l, hl, hsub⟩ := matchLoop_oids_sublist (completedPayments s)
    (completedOrders s) initLoopState
  have hrl : (runState s).matched_order_ids =
      initLoopState.matched_order_ids ++ l := hl
  have hrl' : (runState s).matched_order_ids = l := by
    simpa [initLoopState] using hrl
  have hpoolO : List.Sublist ((completedOrders s).map (fun o => o.id))
      (s.orders.map (fun o => o.id)) := by
    show List.Sublist ((s.orders.filter
        (fun o => o.status == RecStatus.completed)).map (fun o => o.id))
      (s.orders.map (fun o => o.id))
    exact List.Sublist.map _ (List.filter_sublist _)
  have hpoolOn : ((completedOrders s).map (fun o => o.id)).Nodup :=
    List.Nodup.sublist hpoolO h1
  have hpoolP : List.Sublist ((completedPayments s).map (fun p => p.id))
      (s.payments.map (fun p => p.id)) := by
    show List.Sublist ((s.payments.filter
        (fun p => p.status == RecStatus.completed)).map (fun p => p.id))
      (s.payments.map (fun p => p.id))
    exact List.Sublist.map _ (List.filter_sublist _)
  have hpoolPn : ((completedPayments s).map (fun p => p.id)).Nodup :=
    List.Nodup.sublist hpoolP h2
  refine ⟨rfl, ?_, ?_, ?_, ?_⟩
  · show ((completedOrders s).filter (fun o =>
        o.id ∉ (runState s).matched_order_ids)).map
        (fun o => o.merchant_order_id) = _
    rw [hl1']
    rfl
  · show ((completedPayments s).filter (fun p =>
        p.id ∉ (runState s).matched_payment_ids)).map
        (fun p => p.merchant_order_id) = _
    rw [hl2']
    rfl
  · show (runState s).matched_pairs.length +
      (((completedOrders s).filter (fun o =>
        o.id ∉ (runState s).matched_order_ids)).map
        (fun o => o.merchant_order_id)).length = (completedOrders s).length
    rw [List.length_map]
    have hcnt : (runState s).matched_pairs.length =
        (runState s).matched_order_ids.length := by
      rw [hl1', List.length_map]
    have hLn : (runState s).matched_order_ids.Nodup := by
      rw [hrl']
      exact List.Nodup.sublist hsub hpoolOn
    have hLsub : ∀ x ∈ (runState s).matched_order_ids,
        x ∈ (completedOrders s).map (fun o => o.id) := by
      rw [hrl']
      exact fun x hx => hsub.subset hx
    have hmem := length_filter_mem_of_nodup
      ((completedOrders s).map (fun o => o.id))
      (runState s).matched_order_ids hpoolOn hLn hLsub
    have hkey := length_filter_key (fun o : OrderRec => o.id)
      (runState s).matched_order_ids (completedOrders s)
    have hnot := length_filter_not_key (fun o : OrderRec => o.id)
      (runState s).matched_order_ids (completedOrders s)
    have hfle := List.length_filter_le (fun o : OrderRec =>
      decide (o.id ∈ (runState s).matched_order_ids)) (completedOrders s)
    omega
  · show (runState s).matched_pairs.length +
      (((completedPayments s).filter (fun p =>
        p.id ∉ (runState s).matched_payment_ids)).map
        (fun p => p.merchant_order_id)).length = (completedPayments s).length
    rw [List.length_map]
    have hcnt : (runState s).matched_pairs.length =
        (runState s).matched_payment_ids.length := by
      rw [hl2', List.length_map]
    have hLn : (runState s).matched_payment_ids.Nodup :=
      matchLoop_pids_nodup (completedPayments s) (completedOrders s)
        initLoopState List.nodup_nil
    have hLsub : ∀ x ∈ (runState s).matched_payment_ids,
        x ∈ (completedPayments s).map (fun p => p.id) := by
      intro x hx
      rcases matchLoop_pids_from (completedPayments s) (completedOrders s)
        initLoopState x hx with h | ⟨q, hq, hqid⟩
      · exact absurd (show x ∈ ([] : List Nat) from h) (List.not_mem_nil x)
      · exact List.mem_map.mpr ⟨q, hq, hqid⟩
    have hmem := length_filter_mem_of_nodup
      ((completedPayments s).map (fun p => p.id))
      (runState s).matched_payment_ids hpoolPn hLn hLsub
    have hkey := length_filter_key (fun p : PaymentRec => p.id)
      (runState s).matched_payment_ids (completedPayments s)
    have hnot := length_filter_not_key (fun p : PaymentRec => p.id)
      (runState s).matched_payment_ids (completedPayments s)
    have hfle := List.length_filter_le (fun p : PaymentRec =>
      decide (p.id ∈ (runState s).matched_payment_ids)) (completedPayments s)
    omega

/-- Witness for C10 at the scenario store. -/
theorem reconcile_result_partition_witness :
    (wStore.orders.map (fun o => o.id)).Nodup ∧
    (wStore.payments.map (fun p => p.id)).Nodup ∧
    ((reconcile_transactions wStore).1.matched_count =
      (reconcile_transactions wStore).1.matched_pairs.length ∧
     (reconcile_transactions wStore).1.unmatched_orders =
      ((completedOrders wStore).filter (fun o =>
          o.id ∉ (reconcile_transactions wStore).1.matched_pairs.map
            (fun pr => pr.order_id))).map (fun o => o.merchant_order_id) ∧
     (reconcile_transactions wStore).1.unmatched_payments =
      ((completedPayments wStore).filter (fun p =>
          p.id ∉ (reconcile_transactions wStore).1.matched_pairs.map
            (fun pr => pr.payment_id))).map (fun p => p.merchant_order_id) ∧
     (reconcile_transactions wStore).1.matched_count +
      (reconcile_transactions wStore).1.unmatched_orders.length =
      (completedOrders wStore).length ∧
     (reconcile_transactions wStore).1.matched_count +
      (reconcile_transactions wStore).1.unmatched_payments.length =
      (completedPayments wStore).length) :=
  ⟨by decide, by decide,
   reconcile_result_partition wStore (by decide) (by decide)⟩

/-- Counterexample to C6 as stated: at the scenario store, creating an
order (or a payment) whose merchant order identifier duplicates an
existing row fails with HTTP status 400 (Bad Request), not with the
409 Conflict status that duplicate merchant creation uses — so the
duplicate-key failure is not surfaced as the same Conflict case as for
duplicate merchant creation. -/
theorem create_order_duplicate_not_conflict :
    (create_order wStore wOrderReq 2).1 =
      Except.error
        ⟨400, "Order with merchant_order_id ORDER_001 already exists"⟩ ∧
    (create_payment wStore wPaymentReq 2).1 =
      Except.error
        ⟨400, "Payment with merchant_order_id ORDER_001 already exists"⟩ ∧
    (create_merchant wStore ⟨"M1", "Duplicate"⟩ 2).1 =
      Except.error ⟨409, "Merchant M1 already exists"⟩ ∧
    (400 : Nat) ≠ 409 :=
  ⟨rfl, rfl, rfl, by decide⟩

/-- Claim C6 (amended): a CreateOrder or CreatePayment request whose
merchant order identifier duplicates an existing record's unique key
fails — with HTTP 400 Bad Request carrying an "already exists" detail,
rather than the 409 Conflict used for duplicate merchant creation — and
no record is created (the store is unchanged). -/
theorem create_duplicate_rejected (s : Store) (oreq : OrderCreate)
    (preq : PaymentCreate) (nid : Nat)
    (hmo : ∃ m ∈ s.merchants, m.merchant_id = oreq.merchant_id)
    (ho : ∃ o ∈ s.orders, o.merchant_order_id = oreq.merchant_order_id)
    (hmp : ∃ m ∈ s.merchants, m.merchant_id = preq.merchant_id)
    (hp : ∃ p ∈ s.payments, p.merchant_order_id = preq.merchant_order_id) :
    (create_order s oreq nid =
      (Except.error ⟨400, "Order with merchant_order_id " ++
        oreq.merchant_order_id ++ " already exists"⟩, s)) ∧
    (create_payment s preq nid =
      (Except.error ⟨400, "Payment with merchant_order_id " ++
        preq.merchant_order_id ++ " already exists"⟩, s)) := by
  constructor
  · obtain ⟨o0, ho0, hoeq⟩ := ho
    have hany : (s.orders.any
        (fun o => o.merchant_order_id == oreq.merchant_order_id)) = true :=
      List.any_eq_true.mpr ⟨o0, ho0, by simp [hoeq]⟩
    cases hfind : s.merchants.find?
        (fun m => m.merchant_id == oreq.merchant_id) with
    | none =>
      exfalso
      obtain ⟨m0, hm0, hmeq⟩ := hmo
      have := List.find?_eq_none.mp hfind m0 hm0
      simp [hmeq] at this
    | some m =>
      simp only [create_order, hfind, hany]
      rfl
  · obtain ⟨p0, hp0, hpeq⟩ := hp
    have hany : (s.payments.any
        (fun p => p.merchant_order_id == preq.merchant_order_id)) = true :=
      List.any_eq_true.mpr ⟨p0, hp0, by simp [hpeq]⟩
    cases hfind : s.merchants.find?
        (fun m => m.merchant_id == preq.merchant_id) with
    | none =>
      exfalso
      obtain ⟨m0, hm0, hmeq⟩ := hmp
      have := List.find?_eq_none.mp hfind m0 hm0
      simp [hmeq] at this
    | some m =>
      simp only [create_payment, hfind, hany]
      rfl

/-- Witness for the amended C6 at the scenario store. -/
theorem create_duplicate_rejected_witness :
    (∃ m ∈ wStore.merchants, m.merchant_id = wOrderReq.merchant_id) ∧
    (∃ o ∈ wStore.orders,
      o.merchant_order_id = wOrderReq.merchant_order_id) ∧
    (∃ m ∈ wStore.merchants, m.merchant_id = wPaymentReq.merchant_id) ∧
    (∃ p ∈ wStore.payments,
      p.merchant_order_id = wPaymentReq.merchant_order_id) ∧
    ((create_order wStore wOrderReq 2 =
      (Except.error ⟨400, "Order with merchant_order_id " ++
        wOrderReq.merchant_order_id ++ " already exists"⟩, wStore)) ∧
     (create_payment wStore wPaymentReq 2 =
      (Except.error ⟨400, "Payment with merchant_order_id " ++
        wPaymentReq.merchant_order_id ++ " already exists"⟩, wStore))) :=
  ⟨by decide, by decide, by decide, by decide,
   create_duplicate_rejected wStore wOrderReq wPaymentReq 2
     (by decide) (by decide) (by decide) (by decide)⟩
